import Mathlib

/-!
Verification of the WebSocket coordination core of calendarKodaii
(src/app/core/websocket/manager.py and redis_manager.py), as a shallow
embedding: Python dict/Redis state becomes explicit records, each async
method becomes a state-passing function, and fallible external effects
(socket writes, store round-trips) are injected through an environment of
success flags.  Every method of the source catches broad exceptions, so the
embedded functions are total; a code path that in Python jumps to an
`except` handler is modelled by returning the state as it stands at the
raise point (store primitives do not mutate state when they raise).
-/

namespace CalendarWS

/-! ## Model of WebSocketManager (src/app/core/websocket/manager.py)

`active_connections : Dict[str, WebSocket]` is modelled by its key list
(the socket objects themselves carry no state we track; whether
`websocket.send_json` succeeds for a connection id is injected via the
environment).  `session_connections : Dict[int, List[str]]` and
`user_connections : Dict[int, List[str]]` are modelled as functions to
`Option (List String)`: `none` means the key is absent from the dict.
Session and user ids are Python ints, modelled as `Int`.  The optional
`user_id : int = None` parameter is an `Option Int`; Python truthiness
(`if user_id:`) is false for both `None` and `0`. -/

structure WEnv where
  /-- whether `await websocket.accept()` succeeds in `connect` -/
  acceptOk : Bool
  /-- whether `await websocket.send_json(message)` succeeds, per connection id -/
  sendOk : String → Bool

structure WSMgr where
  active : List String
  sessions : Int → Option (List String)
  users : Int → Option (List String)

/-- Point update of an index map (Python `dict[k] = v` / `del dict[k]`). -/
def updMap (f : Int → Option (List String)) (k : Int) (v : Option (List String)) :
    Int → Option (List String) :=
  fun x => if x = k then v else f x

/-- Python truthiness of the optional `user_id` argument: `None` and `0` are falsy. -/
def uidTruthy : Option Int → Bool
  | none => false
  | some v => v != 0

/-- First assignment of `WebSocketManager.connect` (manager.py line 32):
record the socket under its connection id (a dict write; re-registering an
existing id keeps the key set unchanged). -/
def WSMgr.addActive (m : WSMgr) (cid : String) : WSMgr :=
  { m with active := if cid ∈ m.active then m.active else m.active ++ [cid] }

/-- Session-index block of `WebSocketManager.connect` (manager.py lines
34-37): create the list when absent, then append. -/
def WSMgr.addSession (m : WSMgr) (cid : String) (sid : Int) : WSMgr :=
  { m with sessions := updMap m.sessions sid (some ((m.sessions sid).getD [] ++ [cid])) }

/-- User-index block of `WebSocketManager.connect` (manager.py lines 39-43),
guarded by Python truthiness of `user_id`. -/
def WSMgr.addUser (m : WSMgr) (cid : String) (uid : Option Int) : WSMgr :=
  match uid with
  | none => m
  | some v =>
      if v = 0 then m
      else { m with users := updMap m.users v (some ((m.users v).getD [] ++ [cid])) }

/-- `WebSocketManager.connect` (manager.py lines 23-45).  `await
websocket.accept()` raises before any registration happens when it fails (the
exception propagates to the caller with the state unchanged). -/
def WSMgr.connect (env : WEnv) (m : WSMgr) (cid : String) (sid : Int)
    (uid : Option Int) : WSMgr :=
  if env.acceptOk then ((m.addActive cid).addSession cid sid).addUser cid uid
  else m

/-- First block of `WebSocketManager.disconnect` (manager.py lines 49-50):
drop the id from `active_connections`. -/
def WSMgr.dropActive (m : WSMgr) (cid : String) : WSMgr :=
  { m with active := m.active.erase cid }

/-- Second block of `WebSocketManager.disconnect` (manager.py lines 52-57):
remove the id from the session's index list and delete the list when it
becomes empty. -/
def WSMgr.dropSession (m : WSMgr) (cid : String) (sid : Int) : WSMgr :=
  match m.sessions sid with
  | none => m
  | some l =>
      let l2 := l.erase cid
      { m with sessions := updMap m.sessions sid (if l2 = [] then none else some l2) }

/-- Third block of `WebSocketManager.disconnect` (manager.py lines 59-64):
when `user_id` is truthy, remove the id from the user's index list and delete
the list when it becomes empty. -/
def WSMgr.dropUser (m : WSMgr) (cid : String) (uid : Option Int) : WSMgr :=
  match uid with
  | none => m
  | some v =>
      if v = 0 then m
      else
        match m.users v with
        | none => m
        | some l =>
            let l2 := l.erase cid
            { m with users := updMap m.users v (if l2 = [] then none else some l2) }

/-- `WebSocketManager.disconnect` (manager.py lines 47-66): the three blocks
in source order. -/
def WSMgr.disconnect (m : WSMgr) (cid : String) (sid : Int) (uid : Option Int) :
    WSMgr :=
  ((m.dropActive cid).dropSession cid sid).dropUser cid uid

/-- Accumulator of a delivery pass: successful-write count, connection ids to
which a socket write was attempted, and the deferred removal queue
(`connections_to_remove`). -/
structure Scan where
  sent : Nat
  att : List String
  rem : List String
  deriving DecidableEq, Repr

/-- The iteration pass of `WebSocketManager.send_to_session` /
`send_to_user` (manager.py lines 77-86 and 103-111): for each indexed
connection id, if it is a live key of `active_connections`, attempt the
write; a failed write appends to the removal queue; the structure itself
is not mutated during the pass. -/
def wsScan (env : WEnv) (active : List String) : List String → Scan
  | [] => ⟨0, [], []⟩
  | c :: rest =>
      let r := wsScan env active rest
      if c ∈ active then
        if env.sendOk c then ⟨r.sent + 1, c :: r.att, r.rem⟩
        else ⟨r.sent, c :: r.att, c :: r.rem⟩
      else r

/-- Result of a send: final manager state, returned count, and (ghost) the
list of connection ids actually written to the socket layer. -/
structure WSendRes where
  mgr : WSMgr
  count : Nat
  att : List String

/-- `WebSocketManager.send_to_session` (manager.py lines 68-92): iterate the
session's index, attempt writes, then clean up failed connections by calling
`disconnect(connection_id, session_id)` — with no `user_id` — after the pass. -/
def WSMgr.sendToSession (env : WEnv) (m : WSMgr) (sid : Int) : WSendRes :=
  match m.sessions sid with
  | none => ⟨m, 0, []⟩
  | some conns =>
      let s := wsScan env m.active conns
      ⟨s.rem.foldl (fun acc c => acc.disconnect c sid none) m, s.sent, s.att⟩

/-- `WebSocketManager.send_to_user` (manager.py lines 94-119): same pass over the
user index, but the cleanup loop body is `pass` — nothing is removed. -/
def WSMgr.sendToUser (env : WEnv) (m : WSMgr) (uid : Int) : WSendRes :=
  match m.users uid with
  | none => ⟨m, 0, []⟩
  | some conns =>
      let s := wsScan env m.active conns
      ⟨m, s.sent, s.att⟩

/-- `WebSocketManager.get_session_connection_count` (manager.py lines 121-123). -/
def WSMgr.getSessionConnectionCount (m : WSMgr) (sid : Int) : Nat :=
  ((m.sessions sid).getD []).length

/-- `WebSocketManager.get_total_connections` (manager.py lines 125-127). -/
def WSMgr.getTotalConnections (m : WSMgr) : Nat :=
  m.active.length

/-! ## Model of RedisWebSocketManager (src/app/core/websocket/redis_manager.py)

The Redis keyspace the manager touches is modelled by three maps:
`hash s` is the contents of the hash `session:<s>:connections` as an
association list (Redis hash fields are unique; the list model carries a
nodup hypothesis where a theorem needs it); `rev c` is the string key
`connection:<c>:session` (`none` = key absent; Python's
`if session_id_bytes:` is falsy exactly on absence, since a stored int
serializes to non-empty bytes); `counter s` is the integer key
`session:<s>:connection_count` (`DECR` on an absent key behaves as
decrementing 0).  Key expiry (TTL) is not modelled: no claim below is about
the passage of time.  A hash field's value is the stored JSON blob: either a
parseable object carrying an optional `server_id` field, or a malformed blob
on which `json.loads` raises. -/

/-- A value stored in a session's connection hash. -/
inductive RVal where
  /-- parseable JSON object; the argument is `connection_info.get("server_id")` -/
  | obj (serverId : Option String) : RVal
  /-- blob on which `json.loads` raises -/
  | bad : RVal
  deriving DecidableEq, Repr

structure Store where
  hash : Int → List (String × RVal)
  rev : String → Option Int
  counter : Int → Option Int

/-- Failure injection for the store and socket effects used by
RedisWebSocketManager.  A `false` flag means that call raises (and, being a
pure read or a transport failure, leaves the store unchanged). -/
structure REnv where
  /-- `redis.get` (reverse mapping and counter reads) -/
  getOk : Bool
  /-- `redis.hdel` -/
  hdelOk : Bool
  /-- `redis.delete` -/
  delOk : Bool
  /-- `redis.decr` -/
  decrOk : Bool
  /-- `redis.hlen` -/
  hlenOk : Bool
  /-- `redis.hgetall` -/
  hgetallOk : Bool
  /-- `redis.publish` -/
  publishOk : Bool
  /-- `pubsub.close` -/
  closeOk : Bool
  /-- `websocket.send_json`, per connection id -/
  sendOk : String → Bool

structure RMgr where
  store : Store
  /-- keys of `self.local_connections` (socket handles carry no tracked state) -/
  localConns : List String
  serverId : String
  /-- `self._listener_task`: `none` = no task, `some true` = running,
  `some false` = done/cancelled -/
  listenerTask : Option Bool
  /-- `self.pubsub`: `none` = no handle, `some true` = open, `some false` = closed -/
  pubsub : Option Bool
  initialized : Bool

/-- `RedisWebSocketManager.disconnect` (redis_manager.py lines 97-124): remove
from the local registry, then — only when initialized — look up the reverse
mapping; when present, delete the hash field, delete the reverse mapping and
decrement the counter; any store failure is caught and leaves the remaining
steps undone.  The trailing `hlen` is only logged, so its outcome does not
affect the state. -/
def RMgr.disconnect (env : REnv) (m : RMgr) (cid : String) : RMgr :=
  let m1 : RMgr := { m with localConns := m.localConns.erase cid }
  if m1.initialized then
    if env.getOk then
      match m1.store.rev cid with
      | none => m1
      | some sid =>
          if env.hdelOk then
            let st2 : Store :=
              { m1.store with
                  hash := fun s =>
                    if s = sid then (m1.store.hash sid).filter (fun p => p.1 ≠ cid)
                    else m1.store.hash s }
            if env.delOk then
              let st3 : Store :=
                { st2 with rev := fun c => if c = cid then none else st2.rev c }
              if env.decrOk then
                let st4 : Store :=
                  { st3 with
                      counter := fun s =>
                        if s = sid then some ((st3.counter sid).getD 0 - 1)
                        else st3.counter s }
                { m1 with store := st4 }
              else { m1 with store := st3 }
            else { m1 with store := st2 }
          else m1
    else m1
  else m1

/-- The per-entry pass of `RedisWebSocketManager._send_to_local_connections`
(redis_manager.py lines 184-210), over the `hgetall` snapshot: malformed JSON
is caught per entry and queues the id for removal; an entry recorded for this
server whose id is a live local connection gets a socket write (a failed write
queues it for removal); an entry for this server absent from the local
registry is queued for removal without a write; entries recorded for other
servers (or without a `server_id`) are skipped. -/
def rScan (env : REnv) (serverId : String) (localConns : List String) :
    List (String × RVal) → Scan
  | [] => ⟨0, [], []⟩
  | (cid, v) :: rest =>
      let r := rScan env serverId localConns rest
      match v with
      | RVal.bad => ⟨r.sent, r.att, cid :: r.rem⟩
      | RVal.obj sOpt =>
          if sOpt = some serverId then
            if cid ∈ localConns then
              if env.sendOk cid then ⟨r.sent + 1, cid :: r.att, r.rem⟩
              else ⟨r.sent, cid :: r.att, cid :: r.rem⟩
            else ⟨r.sent, r.att, cid :: r.rem⟩
          else r

/-- Result of a Redis-manager delivery step: final manager state, returned
value, and (ghost) the connection ids actually written to. -/
structure RSendRes where
  mgr : RMgr
  count : Nat
  att : List String

/-- `RedisWebSocketManager._send_to_local_connections` (redis_manager.py lines
175-219): snapshot the session's hash, run the pass, then purge the removal
queue by calling `self.disconnect` on each queued id; returns the count of
successful local writes.  A failing `hgetall` is caught and yields 0 with no
writes. -/
def RMgr.sendToLocal (env : REnv) (m : RMgr) (sid : Int) : RSendRes :=
  if env.hgetallOk then
    let s := rScan env m.serverId m.localConns (m.store.hash sid)
    ⟨s.rem.foldl (fun acc c => acc.disconnect env c) m, s.sent, s.att⟩
  else ⟨m, 0, []⟩

/-- `RedisWebSocketManager.get_session_connection_count` (redis_manager.py
lines 163-173): `hlen` of the session's hash; 0 when the call raises. -/
def RMgr.getSessionConnectionCount (env : REnv) (m : RMgr) (sid : Int) : Nat :=
  if env.hlenOk then (m.store.hash sid).length else 0

/-- `RedisWebSocketManager.send_to_session` (redis_manager.py lines 126-161):
when not initialized, return 0.  Otherwise, inside one broad `try`: publish to
the broker channel, then deliver to local connections, then query the
directory count and return it.  A raising publish jumps straight to the
`except` handler, so the local delivery and the count query are skipped and
the call returns 0.  (The message payload itself does not influence any
tracked state, so it is not a parameter; per-connection write success comes
from the environment.) -/
def RMgr.sendToSession (env : REnv) (m : RMgr) (sid : Int) : RSendRes :=
  if m.initialized then
    if env.publishOk then
      let r := m.sendToLocal env sid
      ⟨r.mgr, r.mgr.getSessionConnectionCount env sid, r.att⟩
    else ⟨m, 0, []⟩
  else ⟨m, 0, []⟩

/-- Value in the diagnostic record returned by `get_session_info`. -/
inductive InfoVal where
  | int (i : Int) : InfoVal
  | str (s : String) : InfoVal
  | strList (l : List String) : InfoVal
  deriving DecidableEq, Repr

/-- `RedisWebSocketManager.get_session_info` (redis_manager.py lines 254-277):
the returned Python dict, as an ordered key/value list.  `connection_count` is
`int(await redis.get(...) or 0)`: absent key gives 0.  `local_connections` is
`list(self.local_connections.keys())` — all of this process's connections,
with no filtering by session.  The last key is named `"redis_connections"`
and holds the field names of the session's hash.  Any store failure is caught
and yields the empty dict. -/
def RMgr.getSessionInfo (env : REnv) (m : RMgr) (sid : Int) :
    List (String × InfoVal) :=
  if env.hgetallOk then
    if env.getOk then
      [ ("session_id", InfoVal.int sid),
        ("total_connections", InfoVal.int (m.store.hash sid).length),
        ("connection_count", InfoVal.int ((m.store.counter sid).getD 0)),
        ("local_connections", InfoVal.strList m.localConns),
        ("server_id", InfoVal.str m.serverId),
        ("redis_connections", InfoVal.strList ((m.store.hash sid).map Prod.fst)) ]
    else []
  else []

/-- One message yielded by `pubsub.listen()`: its `type`, the channel name,
and whether `json.loads` succeeds on its data (the payload content does not
influence any tracked state). -/
structure PMsg where
  type : String
  channel : String
  dataValid : Bool
  deriving DecidableEq, Repr

/-- Python `str.split(":")` on the character list of a string: split at every
colon, keeping empty segments (`"".split(":") == [""]`,
`":".split(":") == ["", ""]`). -/
def splitCols : List Char → List (List Char)
  | [] => [[]]
  | c :: rest =>
      if c = ':' then [] :: splitCols rest
      else
        match splitCols rest with
        | [] => [[c]]
        | g :: gs => (c :: g) :: gs

/-- Python `int()` on a character list, for the literal shapes that occur in
channel names: an optional leading minus sign followed by at least one decimal
digit; `none` models the `ValueError` on anything else (exotic accepted
literals such as surrounding whitespace or embedded underscores do not occur
here). -/
def parseDigits : List Char → Option Nat
  | [] => none
  | [c] => if c.isDigit then some (c.toNat - 48) else none
  | c :: rest =>
      if c.isDigit then
        (parseDigits rest).map (fun n => (c.toNat - 48) * 10 ^ rest.length + n)
      else none

/-- Signed variant of `parseDigits`, the model of Python `int()`. -/
def parseIntChars : List Char → Option Int
  | '-' :: rest => (parseDigits rest).map (fun n => -(n : Int))
  | cs => (parseDigits cs).map (fun n => (n : Int))

/-- The channel-name parse in `RedisWebSocketManager._redis_listener`
(redis_manager.py line 237): `int(channel.split(":")[1])` — the segment
between the first and second colon; `none` models the `IndexError` (no colon)
or `ValueError` (non-integer segment) that the per-message handler catches. -/
def parseChannel (channel : String) : Option Int :=
  ((splitCols channel.data).get? 1).bind parseIntChars

/-- The character list after the first colon, `none` when there is no colon. -/
def afterFirstCol : List Char → Option (List Char)
  | [] => none
  | c :: rest => if c = ':' then some rest else afterFirstCol rest

/-- The session-id parse the spec describes: "the substring after the first
colon in the channel name", converted with `int()`.  Modelled from the spec's
words only, to compare with `parseChannel` above. -/
def specParseChannel (channel : String) : Option Int :=
  (afterFirstCol channel.data).bind parseIntChars

/-- The body of the `async for` loop in `RedisWebSocketManager._redis_listener`
(redis_manager.py lines 230-248) for one received message: only `pmessage`
entries are processed; the channel parse, the payload deserialization and the
dispatch to `_send_to_local_connections` are wrapped in a per-message `try`
whose handler logs and falls through to the next message.  Returns the new
state and the session id the message was forwarded to, if any. -/
def RMgr.oneMessage (env : REnv) (m : RMgr) (msg : PMsg) : RMgr × Option Int :=
  if msg.type = "pmessage" then
    match parseChannel msg.channel with
    | none => (m, none)
    | some sid =>
        if msg.dataValid then ((m.sendToLocal env sid).mgr, some sid)
        else (m, none)
  else (m, none)

/-- The listener loop over a stream of received messages: every message is
processed by `RMgr.oneMessage` and the loop continues regardless of the
outcome. -/
def listenerRun (env : REnv) (m : RMgr) : List PMsg → RMgr
  | [] => m
  | msg :: rest => listenerRun env (m.oneMessage env msg).1 rest

/-- `RedisWebSocketManager.cleanup` (redis_manager.py lines 279-295): if a
listener task exists and is not done, cancel it and await it, swallowing the
`CancelledError`; if a pub/sub handle exists, close it inside its own
`try/except`; finally reset the initialized flag.  No path raises. -/
def RMgr.cleanup (env : REnv) (m : RMgr) : RMgr :=
  let m1 : RMgr :=
    match m.listenerTask with
    | some true => { m with listenerTask := some false }
    | _ => m
  let m2 : RMgr :=
    match m1.pubsub with
    | some _ => if env.closeOk then { m1 with pubsub := some false } else m1
    | none => m1
  { m2 with initialized := false }

/-! ## Conjunctions of environment success flags used as hypotheses -/

/-- All shared-store operations used by a send succeed. -/
def REnv.storeOk (env : REnv) : Bool :=
  env.getOk && env.hdelOk && env.delOk && env.decrOk && env.hlenOk &&
    env.hgetallOk && env.publishOk

/-- The store operations used by `disconnect`'s cleanup succeed. -/
def REnv.cleanupOk (env : REnv) : Bool :=
  env.getOk && env.hdelOk && env.delOk && env.decrOk

/-! ## Concrete fixtures for witnesses and counterexamples -/

/-- Environment in which every store and socket operation succeeds. -/
def envOK : REnv :=
  { getOk := true, hdelOk := true, delOk := true, decrOk := true, hlenOk := true,
    hgetallOk := true, publishOk := true, closeOk := true, sendOk := fun _ => true }

/-- Like `envOK` but the broker publish raises. -/
def envPubFail : REnv :=
  { envOK with publishOk := false }

/-- Store holding one directory entry for session 1 owned by server `srv`,
with no reverse mapping recorded. -/
def storeNoRev : Store :=
  { hash := fun s => if s = 1 then [("c", RVal.obj (some "srv"))] else []
    rev := fun _ => none
    counter := fun _ => none }

/-- Initialized manager on server `srv` with the `storeNoRev` store and an
empty local registry: the session-1 entry is stale (owned here, not local). -/
def mgrNoRev : RMgr :=
  { store := storeNoRev, localConns := [], serverId := "srv",
    listenerTask := none, pubsub := none, initialized := true }

/-- Like `mgrNoRev` but with the reverse mapping present and the connection
live in the local registry. -/
def mgrLive : RMgr :=
  { mgrNoRev with
      store := { storeNoRev with rev := fun c => if c = "c" then some 1 else none }
      localConns := ["c"] }

/-- Like `mgrLive` but with an empty local registry: the session-1 directory
entry is stale (owned by this server, absent locally) and its reverse mapping
is present. -/
def mgrStale : RMgr :=
  { mgrLive with localConns := [] }

/-- Manager whose only local connection `x` is recorded in the directory under
session 2, while session 1's directory entry is empty. -/
def mgrOther : RMgr :=
  { store :=
      { hash := fun s => if s = 2 then [("x", RVal.obj (some "srv"))] else []
        rev := fun c => if c = "x" then some 2 else none
        counter := fun _ => none }
    localConns := ["x"], serverId := "srv", listenerTask := none,
    pubsub := none, initialized := true }

/-- WebSocketManager environment in which every socket write succeeds. -/
def wenvOK : WEnv :=
  { acceptOk := true, sendOk := fun _ => true }

/-- WebSocketManager environment in which every socket write raises. -/
def wenvFail : WEnv :=
  { acceptOk := true, sendOk := fun _ => false }

/-- Empty WebSocketManager state. -/
def wEmpty : WSMgr :=
  { active := [], sessions := fun _ => none, users := fun _ => none }

/-- One live connection `c`, indexed under session 1 and user 7. -/
def wOne : WSMgr :=
  { active := ["c"]
    sessions := fun s => if s = 1 then some ["c"] else none
    users := fun u => if u = 7 then some ["c"] else none }

/-! ## Operation sequences and invariants for WebSocketManager -/

/-- One public operation on a `WSMgr`. -/
inductive WOp where
  | connect (cid : String) (sid : Int) (uid : Option Int) : WOp
  | disconnect (cid : String) (sid : Int) (uid : Option Int) : WOp
  | sendSession (sid : Int) : WOp
  | sendUser (uid : Int) : WOp

/-- Apply one operation to the state. -/
def applyOp (env : WEnv) (m : WSMgr) : WOp → WSMgr
  | WOp.connect c s u => m.connect env c s u
  | WOp.disconnect c s u => m.disconnect c s u
  | WOp.sendSession s => (m.sendToSession env s).mgr
  | WOp.sendUser u => (m.sendToUser env u).mgr

/-- Apply a sequence of operations, left to right. -/
def applyOps (env : WEnv) (m : WSMgr) : List WOp → WSMgr
  | [] => m
  | op :: rest => applyOps env (applyOp env m op) rest

/-- Neither secondary index maps a key to an empty list. -/
def noEmpty (m : WSMgr) : Prop :=
  (∀ k l, m.sessions k = some l → l ≠ []) ∧
  (∀ k l, m.users k = some l → l ≠ [])

/-! ## Component lemmas for the WebSocketManager operations -/

theorem dropActive_sessions (m : WSMgr) (cid : String) :
    (m.dropActive cid).sessions = m.sessions := rfl

theorem dropActive_users (m : WSMgr) (cid : String) :
    (m.dropActive cid).users = m.users := rfl

theorem dropSession_active (m : WSMgr) (cid : String) (sid : Int) :
    (m.dropSession cid sid).active = m.active := by
  unfold WSMgr.dropSession
  cases m.sessions sid <;> rfl

theorem dropSession_users (m : WSMgr) (cid : String) (sid : Int) :
    (m.dropSession cid sid).users = m.users := by
  unfold WSMgr.dropSession
  cases m.sessions sid <;> rfl

theorem dropSession_sessions_self (m : WSMgr) (cid : String) (sid : Int) :
    (m.dropSession cid sid).sessions sid =
      (match m.sessions sid with
       | none => none
       | some l => if l.erase cid = [] then none else some (l.erase cid)) := by
  unfold WSMgr.dropSession
  cases h : m.sessions sid <;> simp [updMap, h]

theorem dropSession_sessions_other (m : WSMgr) (cid : String) (sid k : Int)
    (hk : k ≠ sid) :
    (m.dropSession cid sid).sessions k = m.sessions k := by
  unfold WSMgr.dropSession
  cases h : m.sessions sid <;> simp [updMap, hk]

theorem dropUser_none (m : WSMgr) (cid : String) :
    m.dropUser cid none = m := rfl

theorem dropUser_active (m : WSMgr) (cid : String) (uid : Option Int) :
    (m.dropUser cid uid).active = m.active := by
  unfold WSMgr.dropUser
  rcases uid with _ | v
  · rfl
  · by_cases hv : v = 0
    · simp [hv]
    · simp only [hv, if_false]
      cases m.users v <;> rfl

theorem dropUser_sessions (m : WSMgr) (cid : String) (uid : Option Int) :
    (m.dropUser cid uid).sessions = m.sessions := by
  unfold WSMgr.dropUser
  rcases uid with _ | v
  · rfl
  · by_cases hv : v = 0
    · simp [hv]
    · simp only [hv, if_false]
      cases m.users v <;> rfl

theorem disconnect_active (m : WSMgr) (cid : String) (sid : Int)
    (uid : Option Int) :
    (m.disconnect cid sid uid).active = m.active.erase cid := by
  unfold WSMgr.disconnect
  rw [dropUser_active, dropSession_active]
  rfl

theorem disconnect_sessions_self (m : WSMgr) (cid : String) (sid : Int)
    (uid : Option Int) :
    (m.disconnect cid sid uid).sessions sid =
      (match m.sessions sid with
       | none => none
       | some l => if l.erase cid = [] then none else some (l.erase cid)) := by
  unfold WSMgr.disconnect
  rw [dropUser_sessions, dropSession_sessions_self]
  rfl

theorem disconnect_sessions_other (m : WSMgr) (cid : String) (sid k : Int)
    (uid : Option Int) (hk : k ≠ sid) :
    (m.disconnect cid sid uid).sessions k = m.sessions k := by
  unfold WSMgr.disconnect
  rw [dropUser_sessions, dropSession_sessions_other _ _ _ _ hk]
  rfl

theorem disconnect_users_none (m : WSMgr) (cid : String) (sid : Int) :
    (m.disconnect cid sid none).users = m.users := by
  unfold WSMgr.disconnect
  rw [dropUser_none, dropSession_users]
  rfl

/-! ## C1 — broker publish failure inside send_to_session -/

/-- C1 (amended): if the broker publish step inside
`RedisWebSocketManager.send_to_session` raises, no exception propagates to the
caller — the handler catches it, logs, and returns 0 — but the failure aborts
the remaining steps of that call: local delivery is skipped (no socket write
happens) and the state is unchanged, so the whole send, not just the publish
step, degrades to a no-op. -/
theorem sendToSession_publishFailure_skips_local (env : REnv) (m : RMgr)
    (sid : Int) (hi : m.initialized = true) (hp : env.publishOk = false) :
    m.sendToSession env sid = ⟨m, 0, []⟩ := by
  simp [RMgr.sendToSession, hi, hp]

/-- C1 counterexample to the claim as stated: on an initialized manager with a
live local connection `c` registered for session 1, a failing publish yields a
send with zero socket writes — local delivery did not "still happen" — while
the same send with a succeeding publish does write to `c`. -/
theorem sendToSession_publishFailure_cex :
    mgrLive.initialized = true ∧ "c" ∈ mgrLive.localConns ∧
    ("c", RVal.obj (some "srv")) ∈ mgrLive.store.hash 1 ∧
    (mgrLive.sendToSession envPubFail 1).att = [] ∧
    (mgrLive.sendToSession envPubFail 1).count = 0 ∧
    (mgrLive.sendToSession envOK 1).att = ["c"] := by
  refine ⟨rfl, ?_, ?_, rfl, rfl, ?_⟩ <;> decide

/-- C1 witness: the amended theorem applied at a concrete input. -/
theorem sendToSession_publishFailure_wit :
    mgrLive.initialized = true ∧ envPubFail.publishOk = false ∧
    mgrLive.sendToSession envPubFail 1 = ⟨mgrLive, 0, []⟩ :=
  ⟨rfl, rfl, sendToSession_publishFailure_skips_local envPubFail mgrLive 1 rfl rfl⟩

/-! ## C2 — send_to_session returns the cross-process directory count -/

/-- C2: on an initialized manager whose store operations all succeed,
`send_to_session` returns the number of fields of the directory hash
`session:<id>:connections` (as it stands when the count is queried, after the
local-delivery pass), not the local write count; for a session whose directory
entry is empty it returns 0, leaves the state unchanged, and performs no
socket write. -/
theorem sendToSession_returns_directory_count (env : REnv) (m : RMgr)
    (sid : Int) (hi : m.initialized = true) (hs : env.storeOk = true) :
    (m.sendToSession env sid).count =
      ((m.sendToSession env sid).mgr.store.hash sid).length ∧
    (m.store.hash sid = [] → m.sendToSession env sid = ⟨m, 0, []⟩) := by
  obtain ⟨⟨⟨⟨⟨⟨hget, hhdel⟩, hdel⟩, hdecr⟩, hhlen⟩, hhga⟩, hpub⟩ :=
    by simpa [REnv.storeOk, Bool.and_eq_true] using hs
  constructor
  · simp [RMgr.sendToSession, hi, hpub, RMgr.getSessionConnectionCount, hhlen]
  · intro h0
    simp [RMgr.sendToSession, hi, hpub, RMgr.sendToLocal, hhga, h0, rScan,
      RMgr.getSessionConnectionCount, hhlen]

/-- C2 witness: the theorem applied at a concrete input, including an input
whose directory entry is empty. -/
theorem sendToSession_returns_directory_count_wit :
    mgrOther.initialized = true ∧ envOK.storeOk = true ∧
    ((mgrOther.sendToSession envOK 1).count =
      ((mgrOther.sendToSession envOK 1).mgr.store.hash 1).length ∧
     (mgrOther.store.hash 1 = [] → mgrOther.sendToSession envOK 1 = ⟨mgrOther, 0, []⟩)) :=
  ⟨rfl, rfl, sendToSession_returns_directory_count envOK mgrOther 1 rfl rfl⟩

/-! ## C3 — shape of the get_session_info record -/

/-- C3 (amended): when the store reads succeed, `get_session_info` returns a
record with exactly the keys `session_id`, `total_connections`,
`connection_count`, `local_connections`, `server_id` and `redis_connections`
(not `remote_connection_ids`); `redis_connections` lists the connection ids
recorded in the shared directory for that session, while `local_connections`
lists all of this process's connection ids, with no filtering by session. -/
theorem getSessionInfo_record_shape (env : REnv) (m : RMgr) (sid : Int)
    (h1 : env.hgetallOk = true) (h2 : env.getOk = true) :
    (m.getSessionInfo env sid).map Prod.fst =
      ["session_id", "total_connections", "connection_count",
       "local_connections", "server_id", "redis_connections"] ∧
    (m.getSessionInfo env sid).lookup "redis_connections" =
      some (InfoVal.strList ((m.store.hash sid).map Prod.fst)) ∧
    (m.getSessionInfo env sid).lookup "local_connections" =
      some (InfoVal.strList m.localConns) := by
  refine ⟨?_, ?_, ?_⟩ <;> simp [RMgr.getSessionInfo, h1, h2, List.lookup]

/-- C3 counterexample to the claim as stated: the record has no key named
`remote_connection_ids` (the code names it `redis_connections`), and
`local_connections` reports connection `x` for session 1 although `x` is
recorded in the directory under session 2 and session 1's directory entry is
empty. -/
theorem getSessionInfo_record_shape_cex :
    "remote_connection_ids" ∉ (mgrOther.getSessionInfo envOK 1).map Prod.fst ∧
    (mgrOther.getSessionInfo envOK 1).lookup "local_connections" =
      some (InfoVal.strList ["x"]) ∧
    mgrOther.store.hash 1 = [] ∧ mgrOther.store.rev "x" = some 2 := by
  refine ⟨?_, ?_, ?_, ?_⟩ <;> decide

/-- C3 witness: the amended theorem applied at a concrete input. -/
theorem getSessionInfo_record_shape_wit :
    envOK.hgetallOk = true ∧ envOK.getOk = true ∧
    ((mgrLive.getSessionInfo envOK 1).map Prod.fst =
      ["session_id", "total_connections", "connection_count",
       "local_connections", "server_id", "redis_connections"] ∧
     (mgrLive.getSessionInfo envOK 1).lookup "redis_connections" =
      some (InfoVal.strList ((mgrLive.store.hash 1).map Prod.fst)) ∧
     (mgrLive.getSessionInfo envOK 1).lookup "local_connections" =
      some (InfoVal.strList mgrLive.localConns)) :=
  ⟨rfl, rfl, getSessionInfo_record_shape envOK mgrLive 1 rfl rfl⟩

/-! ## C7 — listener parsing and per-message resilience -/

/-- C7 (amended): the listener processes `pmessage` entries by parsing the
session id as `int(channel.split(":")[1])` — the segment between the first and
second colon of the channel name — and, when the payload deserializes,
forwards the message to the local-send path for that session; a channel whose
parse fails, or a payload that does not deserialize, is logged and skipped
with the state unchanged, and the loop continues with the next message in
every case — one bad message never terminates the listener loop. -/
theorem listener_step_spec (env : REnv) (m : RMgr) (msg : PMsg)
    (rest : List PMsg) :
    listenerRun env m (msg :: rest) =
      listenerRun env (m.oneMessage env msg).1 rest ∧
    (msg.type = "pmessage" → msg.dataValid = true →
      ∀ sid, parseChannel msg.channel = some sid →
        m.oneMessage env msg = ((m.sendToLocal env sid).mgr, some sid)) ∧
    (msg.type = "pmessage" → parseChannel msg.channel = none →
      m.oneMessage env msg = (m, none)) ∧
    (msg.dataValid = false → m.oneMessage env msg = (m, none)) := by
  refine ⟨rfl, ?_, ?_, ?_⟩
  · intro ht hd sid hp
    simp [RMgr.oneMessage, ht, hp, hd]
  · intro ht hp
    simp [RMgr.oneMessage, ht, hp]
  · intro hd
    unfold RMgr.oneMessage
    by_cases ht : msg.type = "pmessage" <;>
      [cases hp : parseChannel msg.channel <;> simp [ht, hp, hd]; simp [ht]]

/-- C7 counterexample to the claim as stated: on the channel name
`session:1:2` the code parses session id 1 (the segment between the first and
second colon) and forwards the message, whereas the substring after the first
colon, `1:2`, is not an integer, so the parse the claim describes would have
errored and skipped the message. -/
theorem listener_step_spec_cex :
    parseChannel "session:1:2" = some 1 ∧
    specParseChannel "session:1:2" = none ∧
    (mgrNoRev.oneMessage envOK ⟨"pmessage", "session:1:2", true⟩).2 = some 1 := by
  refine ⟨?_, ?_, ?_⟩ <;> decide

/-- C7 witness: the amended theorem applied at a concrete message. -/
theorem listener_step_spec_wit :
    parseChannel "session:8" = some 8 ∧
    mgrNoRev.oneMessage envOK ⟨"pmessage", "session:8", true⟩ =
      ((mgrNoRev.sendToLocal envOK 8).mgr, some 8) :=
  ⟨rfl,
    (listener_step_spec envOK mgrNoRev ⟨"pmessage", "session:8", true⟩ []).2.1
      rfl rfl 8 rfl⟩

/-! ## C8 — disconnect of an unknown connection id -/

/-- C8: when the shared store holds no reverse mapping
`connection:<id>:session`, `RedisWebSocketManager.disconnect` leaves the
shared store untouched — no hash field is deleted and no counter is
decremented — and returns without raising (its local effect is only to drop
the id from the local registry, a no-op when it was never there). -/
theorem disconnect_missing_mapping_noop (env : REnv) (m : RMgr) (cid : String)
    (h : m.store.rev cid = none) :
    (m.disconnect env cid).store = m.store ∧
    (m.disconnect env cid).localConns = m.localConns.erase cid := by
  unfold RMgr.disconnect
  by_cases hi : m.initialized <;> by_cases hg : env.getOk <;> simp [hi, hg, h]

/-- C8 witness: the theorem applied at a concrete never-connected id. -/
theorem disconnect_missing_mapping_noop_wit :
    mgrNoRev.store.rev "z" = none ∧
    ((mgrNoRev.disconnect envOK "z").store = mgrNoRev.store ∧
     (mgrNoRev.disconnect envOK "z").localConns = mgrNoRev.localConns.erase "z") :=
  ⟨rfl, disconnect_missing_mapping_noop envOK mgrNoRev "z" rfl⟩

/-! ## C9 — cleanup is total, resetting, and idempotent -/

/-- C9: `cleanup` never raises (every failure path is caught, so the embedded
function is total) and always leaves the manager uninitialized; a running
listener task is cancelled and awaited (the cancellation signal is swallowed,
leaving the task done), the subscription handle is closed when one is present
and the close succeeds, nothing else of the state is touched, and a second
cleanup — including one on a manager that was never initialized — changes
nothing. -/
theorem cleanup_resets_and_idempotent (env : REnv) (m : RMgr) :
    (m.cleanup env).initialized = false ∧
    (m.cleanup env).store = m.store ∧
    (m.cleanup env).localConns = m.localConns ∧
    (m.cleanup env).serverId = m.serverId ∧
    (m.cleanup env).listenerTask =
      (match m.listenerTask with | some true => some false | t => t) ∧
    (m.cleanup env).pubsub =
      (if env.closeOk then m.pubsub.map (fun _ => false) else m.pubsub) ∧
    (m.cleanup env).cleanup env = m.cleanup env := by
  rcases m with ⟨st, lc, sv, lt, pb, ini⟩
  rcases lt with _ | (_ | _) <;> rcases pb with _ | (_ | _) <;>
    by_cases hc : env.closeOk <;> simp [RMgr.cleanup, hc]

/-! ## C10 — user id 0 behaves like an absent user id -/

/-- C10: `WebSocketManager` treats `user_id = 0` exactly like an absent
`user_id` (Python truthiness): `connect` with user 0 equals `connect` with no
user and leaves the user index unchanged, `disconnect` with user 0 equals
`disconnect` with no user and leaves the user index unchanged, and — since no
connection is ever indexed under user 0 — `send_to_user(0, m)` on a state
without a user-0 entry writes to no socket and returns 0. -/
theorem user_zero_ignored (env : WEnv) (m : WSMgr) (cid : String) (sid : Int) :
    m.connect env cid sid (some 0) = m.connect env cid sid none ∧
    (m.connect env cid sid (some 0)).users = m.users ∧
    m.disconnect cid sid (some 0) = m.disconnect cid sid none ∧
    (m.disconnect cid sid (some 0)).users = m.users ∧
    (m.users 0 = none → m.sendToUser env 0 = ⟨m, 0, []⟩) := by
  refine ⟨rfl, ?_, rfl, ?_, ?_⟩
  · show (if env.acceptOk then ((m.addActive cid).addSession cid sid).addUser cid none
        else m).users = m.users
    by_cases ha : env.acceptOk <;>
      simp [ha, WSMgr.addUser, WSMgr.addSession, WSMgr.addActive]
  · show (((m.dropActive cid).dropSession cid sid).dropUser cid none).users = m.users
    rw [dropUser_none, dropSession_users]
    rfl
  · intro h
    simp [WSMgr.sendToUser, h]

/-- C10 witness: the theorem applied at a concrete input with no user-0
index entry. -/
theorem user_zero_ignored_wit :
    wEmpty.users 0 = none ∧ wEmpty.sendToUser wenvOK 0 = ⟨wEmpty, 0, []⟩ :=
  ⟨rfl, (user_zero_ignored wenvOK wEmpty "c" 1).2.2.2.2 rfl⟩

/-! ## C6 — no secondary-index entry ever maps to an empty list -/

theorem addActive_noEmpty (m : WSMgr) (cid : String) (h : noEmpty m) :
    noEmpty (m.addActive cid) := h

theorem addSession_noEmpty (m : WSMgr) (cid : String) (sid : Int)
    (h : noEmpty m) : noEmpty (m.addSession cid sid) := by
  refine ⟨fun k l hk => ?_, h.2⟩
  unfold WSMgr.addSession updMap at hk
  dsimp only at hk
  by_cases hks : k = sid
  · simp only [hks, if_pos rfl] at hk
    cases hk
    simp
  · rw [if_neg hks] at hk
    exact h.1 k l hk

theorem addUser_noEmpty (m : WSMgr) (cid : String) (uid : Option Int)
    (h : noEmpty m) : noEmpty (m.addUser cid uid) := by
  rcases uid with _ | v
  · exact h
  · simp only [WSMgr.addUser]
    by_cases hv : v = 0
    · rw [if_pos hv]; exact h
    · rw [if_neg hv]
      refine ⟨h.1, fun k l hk => ?_⟩
      unfold updMap at hk
      dsimp only at hk
      by_cases hkv : k = v
      · simp only [hkv, if_pos rfl] at hk
        cases hk
        simp
      · rw [if_neg hkv] at hk
        exact h.2 k l hk

theorem connect_noEmpty (env : WEnv) (m : WSMgr) (cid : String) (sid : Int)
    (uid : Option Int) (h : noEmpty m) : noEmpty (m.connect env cid sid uid) := by
  unfold WSMgr.connect
  by_cases ha : env.acceptOk
  · rw [if_pos ha]
    exact addUser_noEmpty _ _ _ (addSession_noEmpty _ _ _ (addActive_noEmpty _ _ h))
  · rw [if_neg ha]
    exact h

theorem dropSession_noEmpty (m : WSMgr) (cid : String) (sid : Int)
    (h : noEmpty m) : noEmpty (m.dropSession cid sid) := by
  refine ⟨fun k l hk => ?_,
    fun k l hk => h.2 k l (by rwa [dropSession_users] at hk)⟩
  by_cases hks : k = sid
  · subst hks
    rw [dropSession_sessions_self] at hk
    rcases hm : m.sessions k with _ | lv
    · simp only [hm] at hk
      exact Option.noConfusion hk
    · simp only [hm] at hk
      by_cases he : lv.erase cid = []
      · rw [if_pos he] at hk
        simp at hk
      · rw [if_neg he] at hk
        injection hk with h2
        exact h2 ▸ he
  · rw [dropSession_sessions_other _ _ _ _ hks] at hk
    exact h.1 k l hk

theorem dropUser_noEmpty (m : WSMgr) (cid : String) (uid : Option Int)
    (h : noEmpty m) : noEmpty (m.dropUser cid uid) := by
  rcases uid with _ | v
  · exact h
  · simp only [WSMgr.dropUser]
    by_cases hv : v = 0
    · rw [if_pos hv]
      exact h
    · rw [if_neg hv]
      rcases hu : m.users v with _ | lv
      · exact h
      · refine ⟨h.1, fun k l hk => ?_⟩
        unfold updMap at hk
        dsimp only at hk
        by_cases hkv : k = v
        · simp only [hkv, if_pos rfl] at hk
          by_cases he : lv.erase cid = []
          · rw [if_pos he] at hk
            simp at hk
          · rw [if_neg he] at hk
            injection hk with h2
            exact h2 ▸ he
        · rw [if_neg hkv] at hk
          exact h.2 k l hk

theorem dropActive_noEmpty (m : WSMgr) (cid : String) (h : noEmpty m) :
    noEmpty (m.dropActive cid) := h

theorem disconnect_noEmpty (m : WSMgr) (cid : String) (sid : Int)
    (uid : Option Int) (h : noEmpty m) : noEmpty (m.disconnect cid sid uid) :=
  dropUser_noEmpty _ _ _ (dropSession_noEmpty _ _ _ (dropActive_noEmpty _ _ h))

theorem foldl_disconnect_noEmpty (sid : Int) :
    ∀ (l : List String) (m : WSMgr), noEmpty m →
      noEmpty (l.foldl (fun acc c => acc.disconnect c sid none) m)
  | [], _, h => h
  | c :: rest, m, h =>
      foldl_disconnect_noEmpty sid rest _ (disconnect_noEmpty m c sid none h)

theorem sendToSession_noEmpty (env : WEnv) (m : WSMgr) (sid : Int)
    (h : noEmpty m) : noEmpty (m.sendToSession env sid).mgr := by
  unfold WSMgr.sendToSession
  cases hm : m.sessions sid <;> simp only [hm]
  · exact h
  · exact foldl_disconnect_noEmpty sid _ m h

theorem sendToUser_mgr (env : WEnv) (m : WSMgr) (u : Int) :
    (m.sendToUser env u).mgr = m := by
  unfold WSMgr.sendToUser
  cases m.users u <;> rfl

theorem applyOp_noEmpty (env : WEnv) (m : WSMgr) (op : WOp) (h : noEmpty m) :
    noEmpty (applyOp env m op) := by
  cases op with
  | connect c s u => exact connect_noEmpty env m c s u h
  | disconnect c s u => exact disconnect_noEmpty m c s u h
  | sendSession s => exact sendToSession_noEmpty env m s h
  | sendUser u =>
      show noEmpty (m.sendToUser env u).mgr
      rw [sendToUser_mgr]
      exact h

/-- C6: the invariant "neither `session_connections` nor `user_connections`
maps a key to an empty list" is preserved by every sequence of
WebSocketManager operations — `connect`, `disconnect`, `send_to_session` and
`send_to_user` with arbitrary arguments — because every removal that empties
a secondary-index list deletes the list in the same operation. -/
theorem wsOps_noEmpty (env : WEnv) (m : WSMgr) (h : noEmpty m) :
    ∀ ops : List WOp, noEmpty (applyOps env m ops)
  | [] => h
  | op :: rest =>
      wsOps_noEmpty env (applyOp env m op) (applyOp_noEmpty env m op h) rest

/-- C6 witness: the invariant theorem applied to the empty manager and a
concrete operation sequence exercising all four operations. -/
theorem wsOps_noEmpty_wit :
    noEmpty wEmpty ∧
    noEmpty (applyOps wenvOK wEmpty
      [WOp.connect "c" 1 (some 7), WOp.sendSession 1, WOp.sendUser 7,
       WOp.disconnect "c" 1 (some 7)]) := by
  have h : noEmpty wEmpty :=
    ⟨fun _ _ hk => Option.noConfusion hk, fun _ _ hk => Option.noConfusion hk⟩
  exact ⟨h, wsOps_noEmpty wenvOK wEmpty h _⟩

/-! ## C5 — the delivery pass of WebSocketManager.send_to_session -/

theorem wsScan_att (env : WEnv) (active : List String) (l : List String) :
    (wsScan env active l).att = l.filter (fun c => decide (c ∈ active)) := by
  induction l with
  | nil => rfl
  | cons c rest ih =>
      by_cases hc : c ∈ active
      · by_cases hs : env.sendOk c <;> simp [wsScan, hc, hs, ih]
      · simp [wsScan, hc, ih]

theorem wsScan_sent (env : WEnv) (active : List String) (l : List String) :
    (wsScan env active l).sent =
      l.countP (fun c => decide (c ∈ active) && env.sendOk c) := by
  induction l with
  | nil => rfl
  | cons c rest ih =>
      by_cases hc : c ∈ active
      · by_cases hs : env.sendOk c <;>
          simp [wsScan, hc, hs, ih, List.countP_cons]
      · simp [wsScan, hc, ih, List.countP_cons]

theorem wsScan_rem (env : WEnv) (active : List String) (l : List String) :
    (wsScan env active l).rem =
      l.filter (fun c => decide (c ∈ active) && !env.sendOk c) := by
  induction l with
  | nil => rfl
  | cons c rest ih =>
      by_cases hc : c ∈ active
      · by_cases hs : env.sendOk c <;> simp [wsScan, hc, hs, ih]
      · simp [wsScan, hc, ih]

theorem foldl_disconnect_preserves_out (sid : Int) :
    ∀ (rem : List String) (m : WSMgr) (c : String),
      c ∉ m.active → c ∉ (m.sessions sid).getD [] →
      c ∉ (rem.foldl (fun acc x => acc.disconnect x sid none) m).active ∧
      c ∉ ((rem.foldl (fun acc x => acc.disconnect x sid none) m).sessions sid).getD []
  | [], _, _, ha, hs => ⟨ha, hs⟩
  | x :: rest, m, c, ha, hs => by
      apply foldl_disconnect_preserves_out sid rest
      · rw [disconnect_active]
        exact fun hmem => ha (List.mem_of_mem_erase hmem)
      · rw [disconnect_sessions_self]
        rcases hm : m.sessions sid with _ | lv
        · simp
        · simp only [hm, Option.getD_some] at hs
          simp only []
          by_cases he : lv.erase x = []
          · rw [if_pos he]
            simp
          · rw [if_neg he]
            simp only [Option.getD_some]
            exact fun hmem => hs (List.mem_of_mem_erase hmem)

theorem disconnect_preserves_nodup (m : WSMgr) (cid : String) (sid : Int)
    (uid : Option Int) (hna : m.active.Nodup)
    (hns : ∀ l, m.sessions sid = some l → l.Nodup) :
    (m.disconnect cid sid uid).active.Nodup ∧
    (∀ l, (m.disconnect cid sid uid).sessions sid = some l → l.Nodup) := by
  constructor
  · rw [disconnect_active]
    exact hna.erase cid
  · intro l hl
    rw [disconnect_sessions_self] at hl
    rcases hm : m.sessions sid with _ | lv
    · simp only [hm] at hl
      exact Option.noConfusion hl
    · simp only [hm] at hl
      by_cases he : lv.erase cid = []
      · rw [if_pos he] at hl
        exact Option.noConfusion hl
      · rw [if_neg he] at hl
        injection hl with h2
        exact h2 ▸ (hns lv hm).erase cid

theorem foldl_disconnect_removes (sid : Int) :
    ∀ (rem : List String) (m : WSMgr) (c : String),
      m.active.Nodup → (∀ l, m.sessions sid = some l → l.Nodup) →
      c ∈ rem →
      c ∉ (rem.foldl (fun acc x => acc.disconnect x sid none) m).active ∧
      c ∉ ((rem.foldl (fun acc x => acc.disconnect x sid none) m).sessions sid).getD []
  | [], _, c, _, _, hc => absurd hc (List.not_mem_nil c)
  | x :: rest, m, c, hna, hns, hc => by
      by_cases hxc : x = c
      · subst hxc
        apply foldl_disconnect_preserves_out sid rest
        · rw [disconnect_active]
          exact fun hmem => ((hna.mem_erase_iff).mp hmem).1 rfl
        · rw [disconnect_sessions_self]
          rcases hm : m.sessions sid with _ | lv
          · simp
          · simp only []
            by_cases he : lv.erase x = []
            · rw [if_pos he]
              simp
            · rw [if_neg he]
              simp only [Option.getD_some]
              exact fun hmem => (((hns lv hm).mem_erase_iff).mp hmem).1 rfl
      · have h1 := disconnect_preserves_nodup m x sid none hna hns
        exact foldl_disconnect_removes sid rest _ c h1.1 h1.2
          ((List.mem_cons.mp hc).resolve_left fun h => hxc h.symm)

theorem foldl_disconnect_users_eq (sid : Int) :
    ∀ (rem : List String) (m : WSMgr),
      (rem.foldl (fun acc x => acc.disconnect x sid none) m).users = m.users
  | [], _ => rfl
  | x :: rest, m => by
      show (rest.foldl (fun acc x => acc.disconnect x sid none)
        (m.disconnect x sid none)).users = m.users
      rw [foldl_disconnect_users_eq sid rest]
      exact disconnect_users_none m x sid

theorem wsSendToSession_eq (env : WEnv) (m : WSMgr) (sid : Int)
    (conns : List String) (hc : m.sessions sid = some conns) :
    m.sendToSession env sid =
      ⟨(wsScan env m.active conns).rem.foldl
          (fun acc c => acc.disconnect c sid none) m,
        (wsScan env m.active conns).sent, (wsScan env m.active conns).att⟩ := by
  simp [WSMgr.sendToSession, hc]

/-- C5 (amended): for a session indexed with connection list `conns` (no
duplicate ids, as dict-backed registries guarantee), `send_to_session`
attempts exactly one write per indexed connection id that is a live key of
the connection registry, returns the count of successful writes only, and no
index is mutated during the pass: each connection whose write raised is
removed — after the pass completes — from the connection registry and from
the session index, while the user index is left entirely untouched (the
post-pass cleanup calls `disconnect` without a `user_id`, so a failed
connection indexed under a user stays in `user_connections`). -/
theorem wsSendToSession_pass_spec (env : WEnv) (m : WSMgr) (sid : Int)
    (conns : List String) (hc : m.sessions sid = some conns)
    (hna : m.active.Nodup)
    (hns : ∀ l, m.sessions sid = some l → l.Nodup) :
    (m.sendToSession env sid).att = conns.filter (fun c => decide (c ∈ m.active)) ∧
    (m.sendToSession env sid).count =
      conns.countP (fun c => decide (c ∈ m.active) && env.sendOk c) ∧
    (m.sendToSession env sid).mgr.users = m.users ∧
    (∀ c, c ∈ conns → c ∈ m.active → env.sendOk c = false →
      c ∉ (m.sendToSession env sid).mgr.active ∧
      c ∉ ((m.sendToSession env sid).mgr.sessions sid).getD []) := by
  rw [wsSendToSession_eq env m sid conns hc]
  refine ⟨wsScan_att env m.active conns, wsScan_sent env m.active conns,
    foldl_disconnect_users_eq sid _ m, ?_⟩
  intro c hcc hca hcs
  apply foldl_disconnect_removes sid _ m c hna hns
  rw [wsScan_rem]
  simp [List.mem_filter, hcc, hca, hcs]

/-- C5 counterexample to the claim as stated: connection `c` is live, indexed
under session 1 and user 7; its write fails, and after the pass it has been
removed from the connection registry and the session index but is still
present in the user index — it is not "removed from the indexes". -/
theorem wsSendToSession_pass_spec_cex :
    "c" ∈ wOne.active ∧ wOne.users 7 = some ["c"] ∧
    wenvFail.sendOk "c" = false ∧
    (wOne.sendToSession wenvFail 1).mgr.active = [] ∧
    (wOne.sendToSession wenvFail 1).mgr.sessions 1 = none ∧
    (wOne.sendToSession wenvFail 1).mgr.users 7 = some ["c"] := by
  refine ⟨?_, ?_, ?_, ?_, ?_, ?_⟩ <;> decide

/-- C5 witness: the amended theorem applied at a concrete input. -/
theorem wsSendToSession_pass_spec_wit :
    wOne.sessions 1 = some ["c"] ∧
    ((wOne.sendToSession wenvFail 1).att = ["c"] ∧
     (wOne.sendToSession wenvFail 1).count = 0 ∧
     (wOne.sendToSession wenvFail 1).mgr.users = wOne.users ∧
     ("c" ∉ (wOne.sendToSession wenvFail 1).mgr.active ∧
      "c" ∉ ((wOne.sendToSession wenvFail 1).mgr.sessions 1).getD [])) := by
  have h := wsSendToSession_pass_spec wenvFail wOne 1 ["c"] rfl (by decide)
    (fun l hl => by
      simp only [wOne] at hl
      simp at hl
      simp [← hl])
  exact ⟨rfl, by simpa using h.1, by simpa using h.2.1, h.2.2.1,
    h.2.2.2 "c" (by decide) (by decide) rfl⟩

/-! ## C4 — opportunistic purge of stale directory entries

Shape analysis of `RMgr.disconnect`: the store either is untouched, or — when
the reverse mapping resolves to a session `s2` — undergoes a prefix of the
three cleanup writes (hash field deletion, reverse-mapping deletion, counter
decrement), cut short at the first failing store call. -/

theorem rDisconnect_shape (env : REnv) (m : RMgr) (cid : String) :
    (m.disconnect env cid).store = m.store ∨
    ∃ s2, m.store.rev cid = some s2 ∧
      (m.disconnect env cid).store.hash =
        (fun s => if s = s2 then (m.store.hash s2).filter (fun p => p.1 ≠ cid)
          else m.store.hash s) ∧
      ((m.disconnect env cid).store.rev = m.store.rev ∨
        (m.disconnect env cid).store.rev =
          (fun c => if c = cid then none else m.store.rev c)) ∧
      ((m.disconnect env cid).store.counter = m.store.counter ∨
        (m.disconnect env cid).store.counter =
          (fun s => if s = s2 then some ((m.store.counter s2).getD 0 - 1)
            else m.store.counter s)) := by
  unfold RMgr.disconnect
  dsimp only
  rcases hrev : m.store.rev cid with _ | s2 <;>
    by_cases hi : m.initialized <;> by_cases hg : env.getOk <;>
      by_cases hh : env.hdelOk <;> by_cases hd : env.delOk <;>
        by_cases hdc : env.decrOk <;>
          simp only [hi, hg, hh, hd, hdc, hrev, if_true, if_false,
            Bool.false_eq_true] <;>
          (try exact Or.inl trivial) <;>
          (refine Or.inr ⟨s2, rfl, ?_, ?_, ?_⟩ <;>
            first
            | trivial
            | rfl
            | exact Or.inl trivial
            | exact Or.inl rfl
            | exact Or.inr trivial
            | exact Or.inr rfl)

theorem rDisconnect_frame (env : REnv) (m : RMgr) (cid : String) :
    (m.disconnect env cid).localConns = m.localConns.erase cid ∧
    (m.disconnect env cid).serverId = m.serverId ∧
    (m.disconnect env cid).initialized = m.initialized ∧
    (m.disconnect env cid).listenerTask = m.listenerTask ∧
    (m.disconnect env cid).pubsub = m.pubsub := by
  unfold RMgr.disconnect
  dsimp only
  rcases hrev : m.store.rev cid with _ | s2 <;>
    by_cases hi : m.initialized <;> by_cases hg : env.getOk <;>
      by_cases hh : env.hdelOk <;> by_cases hd : env.delOk <;>
        by_cases hdc : env.decrOk <;>
          simp [hi, hg, hh, hd, hdc, hrev]

theorem rD_hash_mono (env : REnv) (m : RMgr) (cid : String) (s : Int)
    (p : String × RVal) (hp : p ∈ (m.disconnect env cid).store.hash s) :
    p ∈ m.store.hash s := by
  rcases rDisconnect_shape env m cid with h | ⟨s2, _, hh, _, _⟩
  · rwa [h] at hp
  · rw [hh] at hp
    dsimp only at hp
    by_cases hs : s = s2
    · rw [if_pos hs] at hp
      exact hs ▸ List.mem_of_mem_filter hp
    · rwa [if_neg hs] at hp

theorem rD_hash_keep (env : REnv) (m : RMgr) (cid : String) (s : Int)
    (p : String × RVal) (hp : p ∈ m.store.hash s) (hne : p.1 ≠ cid) :
    p ∈ (m.disconnect env cid).store.hash s := by
  rcases rDisconnect_shape env m cid with h | ⟨s2, _, hh, _, _⟩
  · rwa [h]
  · rw [hh]
    dsimp only
    by_cases hs : s = s2
    · rw [if_pos hs]
      subst hs
      exact List.mem_filter.mpr ⟨hp, by simpa using hne⟩
    · rwa [if_neg hs]

theorem rD_rev_other (env : REnv) (m : RMgr) (cid c : String) (hc : c ≠ cid) :
    (m.disconnect env cid).store.rev c = m.store.rev c := by
  rcases rDisconnect_shape env m cid with h | ⟨s2, _, _, hr | hr, _⟩
  · rw [h]
  · rw [hr]
  · rw [hr]
    dsimp only
    rw [if_neg hc]

theorem rD_rev_self (env : REnv) (m : RMgr) (cid : String) :
    (m.disconnect env cid).store.rev cid = none ∨
    (m.disconnect env cid).store.rev cid = m.store.rev cid := by
  rcases rDisconnect_shape env m cid with h | ⟨s2, _, _, hr | hr, _⟩
  · exact Or.inr (by rw [h])
  · exact Or.inr (by rw [hr])
  · exact Or.inl (by rw [hr]; dsimp only; rw [if_pos rfl])

theorem rD_counter_le (env : REnv) (m : RMgr) (cid : String) (s : Int) :
    ((m.disconnect env cid).store.counter s).getD 0 ≤
      (m.store.counter s).getD 0 := by
  rcases rDisconnect_shape env m cid with h | ⟨s2, _, _, _, hc | hc⟩
  · rw [h]
  · rw [hc]
  · rw [hc]
    dsimp only
    by_cases hs : s = s2
    · rw [if_pos hs, hs]
      simp only [Option.getD_some]
      exact sub_le_self _ (by norm_num)
    · rw [if_neg hs]

theorem rCleanupOk_flags (env : REnv) (hok : env.cleanupOk = true) :
    env.getOk = true ∧ env.hdelOk = true ∧ env.delOk = true ∧
      env.decrOk = true := by
  simpa [REnv.cleanupOk, Bool.and_eq_true, and_assoc] using hok

theorem rDisconnect_purge (env : REnv) (m : RMgr) (cid : String) (s2 : Int)
    (hi : m.initialized = true) (hok : env.cleanupOk = true)
    (hrev : m.store.rev cid = some s2) :
    (m.disconnect env cid).store.hash =
      (fun s => if s = s2 then (m.store.hash s2).filter (fun p => p.1 ≠ cid)
        else m.store.hash s) ∧
    (m.disconnect env cid).store.rev =
      (fun c => if c = cid then none else m.store.rev c) ∧
    (m.disconnect env cid).store.counter =
      (fun s => if s = s2 then some ((m.store.counter s2).getD 0 - 1)
        else m.store.counter s) := by
  obtain ⟨hg, hh, hd, hdc⟩ := rCleanupOk_flags env hok
  unfold RMgr.disconnect
  dsimp only
  simp only [hi, hg, hh, hd, hdc, hrev, if_true]
  refine ⟨?_, ?_, ?_⟩ <;> trivial

/-! Fold lemmas: purging a queued id through the cleanup fold, and frame
preservation across the other queued ids. -/

theorem keysOfMono {l1 l2 : List (String × RVal)} (c : String)
    (h : ∀ p, p ∈ l2 → p ∈ l1) (hc : c ∈ l2.map Prod.fst) :
    c ∈ l1.map Prod.fst := by
  obtain ⟨p, hp, hpc⟩ := List.mem_map.mp hc
  exact List.mem_map.mpr ⟨p, h p hp, hpc⟩

theorem rFold_preserves_purged (env : REnv) (s2 : Int) (cid : String) :
    ∀ (l : List String) (m : RMgr),
      cid ∉ (m.store.hash s2).map Prod.fst → m.store.rev cid = none →
      cid ∉ ((l.foldl (fun acc c => acc.disconnect env c) m).store.hash s2).map
          Prod.fst ∧
      (l.foldl (fun acc c => acc.disconnect env c) m).store.rev cid = none ∧
      ((l.foldl (fun acc c => acc.disconnect env c) m).store.counter s2).getD 0 ≤
        (m.store.counter s2).getD 0
  | [], _, h1, h2 => ⟨h1, h2, le_refl _⟩
  | x :: rest, m, h1, h2 => by
      have h1x : cid ∉ ((m.disconnect env x).store.hash s2).map Prod.fst :=
        fun hmem => h1 (keysOfMono cid (fun p hp => rD_hash_mono env m x s2 p hp) hmem)
      have h2x : (m.disconnect env x).store.rev cid = none := by
        by_cases hx : x = cid
        · subst hx
          rcases rD_rev_self env m x with h | h
          · exact h
          · rw [h, h2]
        · rw [rD_rev_other env m x cid (fun h => hx h.symm), h2]
      have ih := rFold_preserves_purged env s2 cid rest (m.disconnect env x) h1x h2x
      exact ⟨ih.1, ih.2.1, le_trans ih.2.2 (rD_counter_le env m x s2)⟩

theorem rFold_purges (env : REnv) (hok : env.cleanupOk = true) (s2 : Int)
    (cid : String) :
    ∀ (l : List String) (m : RMgr),
      m.initialized = true → m.store.rev cid = some s2 → cid ∈ l →
      cid ∉ ((l.foldl (fun acc c => acc.disconnect env c) m).store.hash s2).map
          Prod.fst ∧
      (l.foldl (fun acc c => acc.disconnect env c) m).store.rev cid = none ∧
      ((l.foldl (fun acc c => acc.disconnect env c) m).store.counter s2).getD 0 <
        (m.store.counter s2).getD 0
  | [], _, _, _, hc => absurd hc (List.not_mem_nil _)
  | x :: rest, m, hi, hrev, hc => by
      by_cases hx : x = cid
      · subst hx
        have hp := rDisconnect_purge env m x s2 hi hok hrev
        have h1 : x ∉ ((m.disconnect env x).store.hash s2).map Prod.fst := by
          rw [hp.1]
          simp only [if_pos rfl]
          intro hmem
          obtain ⟨p, hpmem, hpx⟩ := List.mem_map.mp hmem
          have hfl := List.mem_filter.mp hpmem
          simp [hpx] at hfl
        have h2 : (m.disconnect env x).store.rev x = none := by
          rw [hp.2.1]
          simp
        have h3 : ((m.disconnect env x).store.counter s2).getD 0 =
            (m.store.counter s2).getD 0 - 1 := by
          rw [hp.2.2]
          simp
        have ihp := rFold_preserves_purged env s2 x rest (m.disconnect env x) h1 h2
        refine ⟨ihp.1, ihp.2.1, lt_of_le_of_lt (h3 ▸ ihp.2.2) ?_⟩
        exact sub_one_lt _
      · have ih := rFold_purges env hok s2 cid rest (m.disconnect env x)
          ((rDisconnect_frame env m x).2.2.1.trans hi)
          (by rw [rD_rev_other env m x cid (fun h => hx h.symm)]; exact hrev)
          ((List.mem_cons.mp hc).resolve_left fun h => hx h.symm)
        exact ⟨ih.1, ih.2.1, lt_of_lt_of_le ih.2.2 (rD_counter_le env m x s2)⟩

theorem rFold_preserves_entry (env : REnv) (cid : String) (v : RVal) (s : Int) :
    ∀ (l : List String) (m : RMgr), cid ∉ l →
      (cid, v) ∈ m.store.hash s →
      (cid, v) ∈ ((l.foldl (fun acc c => acc.disconnect env c) m).store.hash s) ∧
      (l.foldl (fun acc c => acc.disconnect env c) m).store.rev cid =
        m.store.rev cid
  | [], _, _, hm => ⟨hm, rfl⟩
  | x :: rest, m, hl, hm => by
      have hxc : cid ≠ x := fun h => hl (h ▸ List.mem_cons_self x rest)
      have hm2 : (cid, v) ∈ (m.disconnect env x).store.hash s :=
        rD_hash_keep env m x s (cid, v) hm hxc
      have ih := rFold_preserves_entry env cid v s rest (m.disconnect env x)
        (fun h => hl (List.mem_cons_of_mem x h)) hm2
      exact ⟨ih.1, ih.2.trans (rD_rev_other env m x cid hxc)⟩

/-! Pass lemmas: what the per-entry scan queues for removal and writes to. -/

theorem rScan_subsets (env : REnv) (srv : String) (lc : List String) :
    ∀ entries : List (String × RVal),
      (rScan env srv lc entries).att ⊆ entries.map Prod.fst ∧
      (rScan env srv lc entries).rem ⊆ entries.map Prod.fst
  | [] => ⟨List.nil_subset _, List.nil_subset _⟩
  | (c0, v0) :: rest => by
      have ih := rScan_subsets env srv lc rest
      rcases v0 with sOpt | _
      · by_cases hsv : sOpt = some srv
        · by_cases hmem : c0 ∈ lc
          · by_cases hsend : env.sendOk c0 <;>
              simp only [rScan, hsv, hmem, hsend, if_true, if_false,
                Bool.false_eq_true] <;>
              constructor <;>
              first
              | exact List.Subset.trans ih.1 (List.subset_cons_self _ _)
              | exact List.Subset.trans ih.2 (List.subset_cons_self _ _)
              | exact List.cons_subset_cons _ ih.1
              | exact List.cons_subset_cons _ ih.2
          · simp only [rScan, hsv, hmem, if_true, if_false]
            exact ⟨List.Subset.trans ih.1 (List.subset_cons_self _ _),
              List.cons_subset_cons _ ih.2⟩
        · simp only [rScan, hsv, if_false]
          exact ⟨List.Subset.trans ih.1 (List.subset_cons_self _ _),
            List.Subset.trans ih.2 (List.subset_cons_self _ _)⟩
      · simp only [rScan]
        exact ⟨List.Subset.trans ih.1 (List.subset_cons_self _ _),
          List.cons_subset_cons _ ih.2⟩

theorem rScan_stale (env : REnv) (srv : String) (lc : List String) :
    ∀ entries : List (String × RVal), (entries.map Prod.fst).Nodup →
      ∀ cid, (cid, RVal.obj (some srv)) ∈ entries → cid ∉ lc →
        cid ∈ (rScan env srv lc entries).rem ∧
        cid ∉ (rScan env srv lc entries).att
  | [], _, cid, hmem, _ => absurd hmem (List.not_mem_nil _)
  | (c0, v0) :: rest, hnd, cid, hmem, hloc => by
      have hnd2 : (rest.map Prod.fst).Nodup :=
        (List.nodup_cons.mp (by simpa using hnd)).2
      have hc0 : c0 ∉ rest.map Prod.fst :=
        (List.nodup_cons.mp (by simpa using hnd)).1
      rcases List.mem_cons.mp hmem with heq | hrest
      · injection heq with h1 h2
        subst h1
        subst h2
        simp only [rScan, if_pos rfl, hloc, if_false]
        refine ⟨List.mem_cons_self _ _, fun hatt => ?_⟩
        exact hc0 ((rScan_subsets env srv lc rest).1 hatt)
      · have hcidk : cid ∈ rest.map Prod.fst := List.mem_map.mpr ⟨_, hrest, rfl⟩
        have hne : c0 ≠ cid := fun h => hc0 (h ▸ hcidk)
        have ih := rScan_stale env srv lc rest hnd2 cid hrest hloc
        rcases v0 with sOpt | _
        · by_cases hsv : sOpt = some srv
          · by_cases hm0 : c0 ∈ lc
            · by_cases hsend : env.sendOk c0 <;>
                simp only [rScan, hsv, hm0, hsend, if_true, if_false,
                  Bool.false_eq_true] <;>
                refine ⟨?_, ?_⟩ <;>
                first
                | exact ih.1
                | exact List.mem_cons_of_mem _ ih.1
                | exact fun h =>
                    (List.mem_cons.mp h).elim (fun h2 => hne h2.symm) ih.2
            · simp only [rScan, hsv, hm0, if_true, if_false]
              exact ⟨List.mem_cons_of_mem _ ih.1, ih.2⟩
          · simp only [rScan, hsv, if_false]
            exact ih
        · simp only [rScan]
          exact ⟨List.mem_cons_of_mem _ ih.1, ih.2⟩

theorem rScan_foreign (env : REnv) (srv : String) (lc : List String) :
    ∀ entries : List (String × RVal), (entries.map Prod.fst).Nodup →
      ∀ cid v, (cid, RVal.obj v) ∈ entries → v ≠ some srv →
        cid ∉ (rScan env srv lc entries).rem ∧
        cid ∉ (rScan env srv lc entries).att
  | [], _, cid, _, hmem, _ => absurd hmem (List.not_mem_nil _)
  | (c0, v0) :: rest, hnd, cid, v, hmem, hv => by
      have hnd2 : (rest.map Prod.fst).Nodup :=
        (List.nodup_cons.mp (by simpa using hnd)).2
      have hc0 : c0 ∉ rest.map Prod.fst :=
        (List.nodup_cons.mp (by simpa using hnd)).1
      rcases List.mem_cons.mp hmem with heq | hrest
      · injection heq with h1 h2
        subst h1
        subst h2
        simp only [rScan, hv, if_false]
        have hsub := rScan_subsets env srv lc rest
        exact ⟨fun h => hc0 (hsub.2 h), fun h => hc0 (hsub.1 h)⟩
      · have hcidk : cid ∈ rest.map Prod.fst := List.mem_map.mpr ⟨_, hrest, rfl⟩
        have hne : c0 ≠ cid := fun h => hc0 (h ▸ hcidk)
        have ih := rScan_foreign env srv lc rest hnd2 cid v hrest hv
        rcases v0 with sOpt | _
        · by_cases hsv : sOpt = some srv
          · by_cases hm0 : c0 ∈ lc
            · by_cases hsend : env.sendOk c0 <;>
                simp only [rScan, hsv, hm0, hsend, if_true, if_false,
                  Bool.false_eq_true] <;>
                refine ⟨?_, ?_⟩ <;>
                first
                | exact ih.1
                | exact ih.2
                | exact fun h =>
                    (List.mem_cons.mp h).elim (fun h2 => hne h2.symm)
                      (fun h2 => ih.1 h2)
                | exact fun h =>
                    (List.mem_cons.mp h).elim (fun h2 => hne h2.symm)
                      (fun h2 => ih.2 h2)
            · simp only [rScan, hsv, hm0, if_true, if_false]
              refine ⟨fun h => ?_, ih.2⟩
              exact (List.mem_cons.mp h).elim (fun h2 => hne h2.symm) ih.1
          · simp only [rScan, hsv, if_false]
            exact ih
        · simp only [rScan]
          refine ⟨fun h => ?_, ih.2⟩
          exact (List.mem_cons.mp h).elim (fun h2 => hne h2.symm) ih.1

theorem rSendToLocal_eq (env : REnv) (m : RMgr) (sid : Int)
    (hg : env.hgetallOk = true) :
    m.sendToLocal env sid =
      ⟨(rScan env m.serverId m.localConns (m.store.hash sid)).rem.foldl
          (fun acc c => acc.disconnect env c) m,
        (rScan env m.serverId m.localConns (m.store.hash sid)).sent,
        (rScan env m.serverId m.localConns (m.store.hash sid)).att⟩ := by
  simp [RMgr.sendToLocal, hg]

/-- C4 (amended): during the local-send pass on an initialized manager whose
cleanup store calls succeed, every directory entry recorded for this process
whose connection id is absent from the local registry gets zero socket writes
and is queued for purge; the purge itself runs through `disconnect`, so the
hash field is deleted (from the session named by the reverse mapping), the
reverse mapping is deleted and that session's counter is decremented exactly
when the entry's reverse mapping `connection:<id>:session` is still present —
an entry without a reverse mapping keeps its hash field.  Entries recorded as
owned by other processes are skipped: no socket write, their hash entry and
reverse mapping are left untouched. -/
theorem sendToLocal_stale_and_foreign (env : REnv) (m : RMgr) (sid : Int)
    (hi : m.initialized = true) (hok : env.cleanupOk = true)
    (hg : env.hgetallOk = true)
    (hnd : ((m.store.hash sid).map Prod.fst).Nodup) :
    (∀ cid, (cid, RVal.obj (some m.serverId)) ∈ m.store.hash sid →
      cid ∉ m.localConns →
      cid ∉ (m.sendToLocal env sid).att ∧
      ∀ s2, m.store.rev cid = some s2 →
        cid ∉ ((m.sendToLocal env sid).mgr.store.hash s2).map Prod.fst ∧
        (m.sendToLocal env sid).mgr.store.rev cid = none ∧
        ((m.sendToLocal env sid).mgr.store.counter s2).getD 0 <
          (m.store.counter s2).getD 0) ∧
    (∀ cid v, (cid, RVal.obj v) ∈ m.store.hash sid → v ≠ some m.serverId →
      cid ∉ (m.sendToLocal env sid).att ∧
      (cid, RVal.obj v) ∈ (m.sendToLocal env sid).mgr.store.hash sid ∧
      (m.sendToLocal env sid).mgr.store.rev cid = m.store.rev cid) := by
  rw [rSendToLocal_eq env m sid hg]
  constructor
  · intro cid hmem hloc
    have hst := rScan_stale env m.serverId m.localConns (m.store.hash sid)
      hnd cid hmem hloc
    refine ⟨hst.2, fun s2 hrev => ?_⟩
    exact rFold_purges env hok s2 cid _ m hi hrev hst.1
  · intro cid v hmem hv
    have hfn := rScan_foreign env m.serverId m.localConns (m.store.hash sid)
      hnd cid v hmem hv
    have hpe := rFold_preserves_entry env cid (RVal.obj v) sid _ m hfn.1 hmem
    exact ⟨hfn.2, hpe.1, hpe.2⟩

/-- C4 counterexample to the claim as stated: on an initialized manager with
all store calls succeeding, the session-1 entry for `c` is recorded for this
server and absent from the local registry, yet after the local-send pass its
hash field is still in the directory — it was not purged, because its reverse
mapping `connection:c:session` is absent and `disconnect` purges only through
the reverse mapping. -/
theorem sendToLocal_stale_and_foreign_cex :
    mgrNoRev.initialized = true ∧
    ("c", RVal.obj (some "srv")) ∈ mgrNoRev.store.hash 1 ∧
    "c" ∉ mgrNoRev.localConns ∧ envOK.cleanupOk = true ∧
    ("c", RVal.obj (some "srv")) ∈
      (mgrNoRev.sendToLocal envOK 1).mgr.store.hash 1 := by
  refine ⟨rfl, ?_, ?_, rfl, ?_⟩ <;> decide

/-- C4 witness: the amended theorem applied at a concrete input whose stale
entry has its reverse mapping present, so the purge fires. -/
theorem sendToLocal_stale_and_foreign_wit :
    ("c", RVal.obj (some "srv")) ∈ mgrStale.store.hash 1 ∧
    "c" ∉ mgrStale.localConns ∧ mgrStale.store.rev "c" = some 1 ∧
    ("c" ∉ (mgrStale.sendToLocal envOK 1).att ∧
     "c" ∉ ((mgrStale.sendToLocal envOK 1).mgr.store.hash 1).map Prod.fst ∧
     (mgrStale.sendToLocal envOK 1).mgr.store.rev "c" = none ∧
     ((mgrStale.sendToLocal envOK 1).mgr.store.counter 1).getD 0 <
       (mgrStale.store.counter 1).getD 0) := by
  have h := sendToLocal_stale_and_foreign envOK mgrStale 1 rfl rfl rfl (by decide)
  have ha := h.1 "c" (by decide) (by decide)
  have hb := ha.2 1 rfl
  exact ⟨by decide, by decide, rfl, ha.1, hb.1, hb.2.1, hb.2.2⟩

end CalendarWS
